import Mathlib

/-
Verification development for the eclair-tortoise telemetry aggregation
engine.  The Rust source (src/app.rs and src/client/) is shallowly
embedded: machine integers (u64, u16, usize) are modelled as Nat;
f64 arithmetic on nonnegative integral operands is modelled as exact
rational arithmetic, with the IEEE special values captured by the
FVal type below; a Rust cast of a nonnegative f64 to an unsigned
integer truncates, which on exact rationals is the floor, i.e. Nat
division.  Fallible steps (vector indexing out of bounds, unsigned
subtraction underflow under overflow-checked arithmetic) are modelled
with Option, none standing for the panic.  The clock value now
(chrono timestamp, an i64 number of seconds, nonnegative for every
realistic clock) is modelled as Nat; theorems that depend on the
window arithmetic carry the hypothesis that now is at least one
window length, under which the source casts i64 -> u64 agree with
truncated Nat subtraction.
-/

namespace Tortoise

set_option maxRecDepth 100000

/-! ## Data model (src/client) -/

/-- src/client/common.rs: Timestamp. The unix field is authoritative. -/
structure Timestamp where
  iso : String
  unix : Nat
  deriving DecidableEq, Repr

/-- src/client/audit.rs: RelayedInfo. The Rust field `_type` is embedded
as type_str. -/
structure RelayedInfo where
  type_str : String
  amount_in : Nat
  amount_out : Nat
  payment_hash : String
  from_channel_id : String
  to_channel_id : String
  timestamp : Timestamp
  deriving DecidableEq, Repr

/-- src/client/audit.rs: AuditInfo. The sent and received lists are not
read by any aggregation in app.rs and are embedded as bare counts of
unmodelled records only through their absence; only relayed is kept. -/
structure AuditInfo where
  relayed : List RelayedInfo
  deriving DecidableEq, Repr

/-- src/client/audit.rs: Default for AuditInfo. -/
def AuditInfo.default : AuditInfo := { relayed := [] }

/-- src/client/channel.rs: ChannelState. -/
inductive ChannelState where
  | Normal
  | Opening
  | Closing
  | Closed
  | Offline
  | Syncing
  | WaitForFundingConfirmed
  deriving DecidableEq, Repr

/-- src/client/channel.rs: ChannelState::is_normal. -/
def ChannelState.is_normal (s : ChannelState) : Bool :=
  s = ChannelState.Normal

/-- src/client/channel.rs: ChannelState::is_pending. -/
def ChannelState.is_pending (s : ChannelState) : Bool :=
  s = ChannelState.Closing
  || s = ChannelState.Opening
  || s = ChannelState.Syncing
  || s = ChannelState.WaitForFundingConfirmed

/-- src/client/channel.rs: ChannelState::is_sleeping. -/
def ChannelState.is_sleeping (s : ChannelState) : Bool :=
  s = ChannelState.Offline

/-- src/client/channel.rs: CommitSpec. The htlcs list is not read by
app.rs and is omitted. -/
structure CommitSpec where
  commit_tx_feerate : Nat
  to_local : Nat
  to_remote : Nat
  deriving DecidableEq, Repr

/-- src/client/channel.rs: ChannelFlags. -/
structure ChannelFlags where
  is_enabled : Option Bool
  is_node1 : Option Bool
  announce_channel : Option Bool
  deriving DecidableEq, Repr

/-- src/client/channel.rs: LocalCommit. Only the spec field is read by
app.rs; index and the transaction data are omitted. -/
structure LocalCommit where
  index : Nat
  spec : CommitSpec
  deriving DecidableEq, Repr

/-- src/client/channel.rs: ChannelCommitments, trimmed to the fields
read by app.rs (channel_id, channel_flags, local_commit). -/
structure ChannelCommitments where
  channel_id : String
  channel_flags : ChannelFlags
  local_commit : LocalCommit
  deriving DecidableEq, Repr

/-- src/client/channel.rs: ChannelData, trimmed to the commitments
field read by app.rs. -/
structure ChannelData where
  type_str : String
  commitments : ChannelCommitments
  deriving DecidableEq, Repr

/-- src/client/channel.rs: ChannelInfo. data is None for channels of a
secondary (hosted) kind. -/
structure ChannelInfo where
  node_id : String
  channel_id : String
  state : ChannelState
  data : Option ChannelData
  deriving DecidableEq, Repr

/-- src/client/node.rs: NetworkNode, trimmed to the fields read by
app.rs (node_id for keying, alias for display). -/
structure NetworkNode where
  node_id : String
  alias_ : String
  deriving DecidableEq, Repr

/-- src/client/node.rs: NodeInfo, trimmed of the feature map, which no
aggregation reads. -/
structure NodeInfo where
  version : String
  node_id : String
  alias_ : String
  color : String
  chain_hash : String
  block_height : Nat
  instance_id : String
  deriving DecidableEq, Repr

/-- src/client/hosted.rs: LastCrossSignedState, trimmed to the fields
read by app.rs. -/
structure LastCrossSignedState where
  is_host : Bool
  block_day : Nat
  local_balance_msat : Nat
  remote_balance_msat : Nat
  rate : Nat
  deriving DecidableEq, Repr

/-- src/client/hosted.rs: Commits (hosted-channel commitments), trimmed
to the fields read by app.rs. -/
structure Commits where
  local_node_id : String
  remote_node_id : String
  channel_id : String
  local_spec : CommitSpec
  deriving DecidableEq, Repr

/-- src/client/hosted.rs: FiatCommits, trimmed to the fields read by
app.rs. -/
structure FiatCommits where
  local_node_id : String
  remote_node_id : String
  channel_id : String
  local_spec : CommitSpec
  last_cross_signed_state : LastCrossSignedState
  deriving DecidableEq, Repr

/-- src/client/hosted.rs: HostedChanData, trimmed to commitments. -/
structure HostedChanData where
  commitments : Commits
  deriving DecidableEq, Repr

/-- src/client/hosted.rs: FiatChanData, trimmed to commitments. -/
structure FiatChanData where
  commitments : FiatCommits
  deriving DecidableEq, Repr

/-- src/client/hosted.rs: HostedChannel. -/
structure HostedChannel where
  state : ChannelState
  data : HostedChanData
  next_local_spec : CommitSpec
  deriving DecidableEq, Repr

/-- src/client/hosted.rs: FiatChannel. -/
structure FiatChannel where
  state : ChannelState
  data : FiatChanData
  next_local_spec : CommitSpec
  deriving DecidableEq, Repr

/-- src/client/hosted.rs: HcInfo. The Rust HashMap keyed by channel id
is embedded as an association list. -/
structure HcInfo where
  channels : List (String × HostedChannel)
  deriving DecidableEq, Repr

/-- src/client/hosted.rs: FcInfo, embedded like HcInfo. -/
structure FcInfo where
  channels : List (String × FiatChannel)
  deriving DecidableEq, Repr

/-- src/client/mod.rs: NodePlugin. -/
inductive NodePlugin where
  | HostedChannels
  | FiatChannels
  deriving DecidableEq, Repr

/-- src/client/mod.rs: Error. The two variants carry the message their
wrapped error displays as. -/
inductive ClientError where
  | reqwestErr (msg : String)
  | decodingErr (msg : String)
  deriving DecidableEq, Repr

/-- src/client/mod.rs: the Display instance of Error, via thiserror. -/
def ClientError.display : ClientError → String
  | ClientError.reqwestErr m => "Requesting server error: " ++ m
  | ClientError.decodingErr m => "Failed to decode: " ++ m

/-! ## Modelling primitives for machine arithmetic -/

/-- Unsigned subtraction under overflow-checked arithmetic: none models
the Rust panic when the subtrahend exceeds the minuend. -/
def checkedSub (a b : Nat) : Option Nat :=
  if b ≤ a then some (a - b) else none

/-- Model of an f64 value produced by the app: a finite rational, an
infinity, or NaN.  All numerators and denominators appearing in the
source are nonnegative, so a single infinity suffices. -/
inductive FVal where
  | fin (q : ℚ)
  | inf
  | nan
  deriving DecidableEq, Repr

/-- IEEE division for nonnegative operands: x / 0 is NaN when x = 0 and
+infinity otherwise; otherwise the exact quotient. -/
def FVal.fdiv (a b : ℚ) : FVal :=
  if b = 0 then (if a = 0 then FVal.nan else FVal.inf) else FVal.fin (a / b)

/-- Finite-ness predicate on modelled f64 values. -/
def FVal.isFinite : FVal → Bool
  | FVal.fin _ => true
  | FVal.inf => false
  | FVal.nan => false

/-! ## The App aggregation state (src/app.rs) -/

/-- src/app.rs: FiatChannelData. fiat_balance is an f64 quotient. -/
structure FiatChannelData where
  rate : Nat
  fiat_balance : FVal
  deriving DecidableEq, Repr

/-- src/app.rs: ChannelExt. -/
inductive ChannelExt where
  | Normal
  | Hosted
  | HostedFiat (data : FiatChannelData)
  deriving DecidableEq, Repr

/-- src/app.rs: ChannelStats. The Rust fields alias and local are
embedded as alias_ and local_ since both are Lean keywords. -/
structure ChannelStats where
  chan_state : ChannelState
  node_id : String
  chan_id : String
  alias_ : String
  local_ : Nat
  remote : Nat
  relays_amount : Nat
  relays_volume : Nat
  relays_fees : Nat
  info_id : Nat
  public : Bool
  channel_ext : ChannelExt
  deriving DecidableEq, Repr

/-- src/app.rs: App. The client and db handles are I/O resources and
are not embedded; keyboard and pagination fields are kept so that the
untouched-on-error theorem quantifies over the whole state. HashMap
and HashSet fields are embedded as lists. return_rate is an f64. -/
structure App where
  tabs : List String
  tab_index : Nat
  errors : List String
  supported : List NodePlugin
  stats_interval : Nat
  node_info : NodeInfo
  active_chans : Nat
  pending_chans : Nat
  sleeping_chans : Nat
  active_sats : Nat
  pending_sats : Nat
  sleeping_sats : Nat
  relayed_count_month : Nat
  relayed_count_day : Nat
  relayed_month : Nat
  relayed_day : Nat
  fee_month : Nat
  fee_day : Nat
  return_rate : FVal
  screen_width : Nat
  relays_maximum_volume : Nat
  relays_maximum_count : Nat
  relays_amounts_line : List Nat
  relays_volumes_line : List Nat
  channels_stats : List ChannelStats
  hosted_stats : List ChannelStats
  fiat_stats : List ChannelStats
  channels : List ChannelInfo
  audit : AuditInfo
  known_nodes : List (String × NetworkNode)
  hc_channels : List (String × HostedChannel)
  fc_channels : List (String × FiatChannel)
  search_focused : Bool
  search_line : String
  channels_page : Nat
  chans_tab : Nat
  deriving Repr

/-- src/app.rs: the field values App::new assigns after the two initial
queries succeed with node_info and supported. -/
def App.init (node_info : NodeInfo) (supported : List NodePlugin) : App where
  tabs := ["Dashboard", "Channels", "Peers", "Onchain", "Routing", "Hosted", "Fiat"]
  tab_index := 0
  errors := []
  supported := supported
  stats_interval := 24 * 3600
  node_info := node_info
  active_chans := 0
  pending_chans := 0
  sleeping_chans := 0
  active_sats := 0
  pending_sats := 0
  sleeping_sats := 0
  relayed_count_month := 0
  relayed_count_day := 0
  relayed_month := 0
  relayed_day := 0
  fee_month := 0
  fee_day := 0
  return_rate := FVal.fin 0
  screen_width := 80
  relays_maximum_volume := 0
  relays_maximum_count := 0
  relays_amounts_line := []
  relays_volumes_line := []
  channels_stats := []
  hosted_stats := []
  fiat_stats := []
  channels := []
  audit := AuditInfo.default
  known_nodes := []
  hc_channels := []
  fc_channels := []
  search_focused := false
  search_line := ""
  channels_page := 0
  chans_tab := 0

/-- src/app.rs: App::iterate_active_chans, fused with the count done by
get_active_chans. -/
def App.iterate_active_chans (app : App) : List ChannelInfo :=
  app.channels.filter (fun c => c.state.is_normal)

/-- src/app.rs: App::get_active_chans. -/
def App.get_active_chans (app : App) : Nat :=
  app.iterate_active_chans.length

/-- src/app.rs: App::iterate_pending_chans. -/
def App.iterate_pending_chans (app : App) : List ChannelInfo :=
  app.channels.filter (fun c => c.state.is_pending)

/-- src/app.rs: App::get_pending_chans. -/
def App.get_pending_chans (app : App) : Nat :=
  app.iterate_pending_chans.length

/-- src/app.rs: App::iterate_sleeping_chans. -/
def App.iterate_sleeping_chans (app : App) : List ChannelInfo :=
  app.channels.filter (fun c => c.state.is_sleeping)

/-- src/app.rs: App::get_sleeping_chans. -/
def App.get_sleeping_chans (app : App) : Nat :=
  app.iterate_sleeping_chans.length

/-- src/app.rs: App::get_active_sats: the to_local balances of channels
in state Normal that carry a data payload. -/
def App.get_active_sats (app : App) : Nat :=
  ((app.channels.filterMap (fun c =>
      if c.state = ChannelState.Normal then c.data else none)).map
    (fun c => c.commitments.local_commit.spec.to_local)).sum

/-- src/app.rs: App::get_pending_sats. -/
def App.get_pending_sats (app : App) : Nat :=
  ((app.channels.filterMap (fun c =>
      if c.state.is_pending then c.data else none)).map
    (fun c => c.commitments.local_commit.spec.to_local)).sum

/-- src/app.rs: App::get_sleeping_sats. -/
def App.get_sleeping_sats (app : App) : Nat :=
  ((app.channels.filterMap (fun c =>
      if c.state.is_sleeping then c.data else none)).map
    (fun c => c.commitments.local_commit.spec.to_local)).sum

/-- src/app.rs: App::get_relayed: the amounts received in the trailing
interval.  The source filters on unix > (now - interval) as u64 with
now the i64 clock; here now : Nat and the threshold is truncated
subtraction, which agrees with the source whenever interval <= now. -/
def App.get_relayed (app : App) (now interval : Nat) : Nat :=
  ((app.audit.relayed.filter
      (fun s => now - interval < s.timestamp.unix)).map
    (fun s => s.amount_in)).sum

/-- src/app.rs: App::get_relayed_month. -/
def App.get_relayed_month (app : App) (now : Nat) : Nat :=
  app.get_relayed now (30 * 24 * 3600)

/-- src/app.rs: App::get_relayed_day. -/
def App.get_relayed_day (app : App) (now : Nat) : Nat :=
  app.get_relayed now (24 * 3600)

/-- src/app.rs: App::get_relayed_count. -/
def App.get_relayed_count (app : App) (now interval : Nat) : Nat :=
  ((app.audit.relayed.filter
      (fun s => now - interval < s.timestamp.unix)).map
    (fun _ => 1)).sum

/-- src/app.rs: App::get_relayed_count_month. -/
def App.get_relayed_count_month (app : App) (now : Nat) : Nat :=
  app.get_relayed_count now (30 * 24 * 3600)

/-- src/app.rs: App::get_relayed_count_day. -/
def App.get_relayed_count_day (app : App) (now : Nat) : Nat :=
  app.get_relayed_count now (24 * 3600)

/-- Sum of amount_in - amount_out over a relay list, each difference an
overflow-checked u64 subtraction: none models the panic of
map(|s| s.amount_in - s.amount_out).sum() on an underflowing event. -/
def sumFees : List RelayedInfo → Option Nat
  | [] => some 0
  | s :: rest => do
      let f ← checkedSub s.amount_in s.amount_out
      let r ← sumFees rest
      pure (f + r)

/-- src/app.rs: App::get_fee: total fee earned in the trailing
interval, amount_in - amount_out summed over the window. -/
def App.get_fee (app : App) (now interval : Nat) : Option Nat :=
  sumFees (app.audit.relayed.filter
    (fun s => now - interval < s.timestamp.unix))

/-- src/app.rs: App::get_fee_month. -/
def App.get_fee_month (app : App) (now : Nat) : Option Nat :=
  app.get_fee now (30 * 24 * 3600)

/-- src/app.rs: App::get_fee_day. -/
def App.get_fee_day (app : App) (now : Nat) : Option Nat :=
  app.get_fee now (24 * 3600)

/-- src/app.rs: App::local_volume. -/
def App.local_volume (app : App) : Nat :=
  app.active_sats + app.pending_sats + app.sleeping_sats

/-- src/app.rs: App::get_return_rate:
12.0 * 100.0 * fee_month / local_volume in f64. -/
def App.get_return_rate (app : App) : FVal :=
  FVal.fdiv (12 * 100 * (app.fee_month : ℚ)) (app.local_volume : ℚ)

/-! ## The histogram binner (src/app.rs lines 436-517) -/

/-- src/app.rs: App::LINE_PERIOD. -/
def App.LINE_PERIOD : Nat := 24 * 3600

/-- src/app.rs: App::LINE_MARGINS. -/
def App.LINE_MARGINS : Nat := 2

/-- result[i] += a on a bucket vector: none models the index-out-of-
bounds panic when i is not a valid index. -/
def listIncr : List Nat → Nat → Nat → Option (List Nat)
  | [], _, _ => none
  | x :: xs, 0, a => some ((x + a) :: xs)
  | x :: xs, i + 1, a => (listIncr xs i a).map (fun ys => x :: ys)

/-- The bucket-filling loop of both binner variants: for each retained
event (weight, t) it computes
i = ((t - t0) as f64 / (t1 - t0) as f64 * line_width as f64) as usize,
which on exact rationals is floor((t - t0) * line_width / (t1 - t0)),
and adds the weight to bucket i.  The count variant is the instance
with every weight 1. -/
def fillBuckets (t0 t1 line_width : Nat) :
    List (Nat × Nat) → List Nat → Option (List Nat)
  | [], acc => some acc
  | (a, t) :: rest, acc =>
    match listIncr acc ((t - t0) * line_width / (t1 - t0)) a with
    | none => none
    | some acc2 => fillBuckets t0 t1 line_width rest acc2

/-- The normalization step shared by both binner variants: max_relay is
the largest bucket (iter().max() of a nonempty vector); when positive,
each bucket a is rescaled to (100.0 * a / max_relay) as u64, the floor
of the exact quotient; when zero, the series becomes empty. -/
def normalizeLine (result : List Nat) : List Nat × Nat :=
  let max_relay := result.foldl max 0
  if 0 < max_relay then
    (result.map (fun a => 100 * a / max_relay), max_relay)
  else ([], 0)

/-- src/app.rs, get_relays_amounts_line lines 441-448: the in-window
relay timestamps, sorted ascending.  The source uses a stable
comparison sort (sort_by with partial_cmp on u64, a total order);
insertion sort is the model. -/
def App.amounts_relays (app : App) (now : Nat) : List Nat :=
  List.insertionSort (fun a b => a ≤ b)
    ((app.audit.relayed.filter
        (fun s => now - App.LINE_PERIOD < s.timestamp.unix)).map
      (fun s => s.timestamp.unix))

/-- src/app.rs, get_relays_amounts_line lines 450-459: the bucket
vector of line_width + 1 zero-initialized buckets after the counting
loop, with t0 = now - LINE_PERIOD and t1 = now. -/
def App.raw_amounts_buckets (app : App) (now : Nat) : Option (List Nat) :=
  let line_width := app.screen_width - App.LINE_MARGINS - 1
  fillBuckets (now - App.LINE_PERIOD) now line_width
    ((app.amounts_relays now).map (fun t => (1, t)))
    (List.replicate (line_width + 1) 0)

/-- src/app.rs: App::get_relays_amounts_line.  The u64 expression
screen_width - LINE_MARGINS - 1 underflows for screen_width < 3 (the
allocation of the bucket vector then aborts either way), modelled by
the leading guard.  When no event is in the window the allocated
zero vector is returned untouched with maximum 0; otherwise the
filled buckets are normalized. -/
def App.get_relays_amounts_line (app : App) (now : Nat) :
    Option (List Nat × Nat) :=
  if app.screen_width < 3 then none
  else
    let line_width := app.screen_width - App.LINE_MARGINS - 1
    if (app.amounts_relays now).isEmpty then
      some (List.replicate (line_width + 1) 0, 0)
    else
      (app.raw_amounts_buckets now).map normalizeLine

/-- src/app.rs, get_relays_volumes_line lines 481-488: the in-window
(amount_in, timestamp) pairs, sorted ascending by timestamp. -/
def App.volumes_relays (app : App) (now : Nat) : List (Nat × Nat) :=
  List.insertionSort (fun a b => a.2 ≤ b.2)
    ((app.audit.relayed.filter
        (fun s => now - App.LINE_PERIOD < s.timestamp.unix)).map
      (fun s => (s.amount_in, s.timestamp.unix)))

/-- src/app.rs, get_relays_volumes_line lines 490-499: the bucket
vector after the amount-weighted loop. -/
def App.raw_volumes_buckets (app : App) (now : Nat) : Option (List Nat) :=
  let line_width := app.screen_width - App.LINE_MARGINS - 1
  fillBuckets (now - App.LINE_PERIOD) now line_width
    (app.volumes_relays now)
    (List.replicate (line_width + 1) 0)

/-- src/app.rs: App::get_relays_volumes_line, structured exactly like
the count variant. -/
def App.get_relays_volumes_line (app : App) (now : Nat) :
    Option (List Nat × Nat) :=
  if app.screen_width < 3 then none
  else
    let line_width := app.screen_width - App.LINE_MARGINS - 1
    if (app.volumes_relays now).isEmpty then
      some (List.replicate (line_width + 1) 0, 0)
    else
      (app.raw_volumes_buckets now).map normalizeLine

/-! ## Per-channel statistics (src/app.rs lines 550-708) -/

/-- src/app.rs: App::get_channel_stats.  none models the underflow
panic of amount_in - amount_out in the relays_fees sum. -/
def App.get_channel_stats (app : App) (i : Nat) (interval : Nat)
    (chan : ChannelInfo) (now : Nat) : Option ChannelStats :=
  let relays := app.audit.relayed.filter (fun s =>
    (s.from_channel_id = chan.channel_id ∨ s.to_channel_id = chan.channel_id)
    ∧ now - interval < s.timestamp.unix)
  match sumFees relays with
  | none => none
  | some fees => some {
      chan_state := chan.state
      node_id := chan.node_id
      chan_id := chan.channel_id
      alias_ := ((app.known_nodes.lookup chan.node_id).map
        (fun n => n.alias_)).getD chan.node_id
      local_ := (chan.data.map
        (fun c => c.commitments.local_commit.spec.to_local)).getD 0
      remote := (chan.data.map
        (fun c => c.commitments.local_commit.spec.to_remote)).getD 0
      relays_amount := (relays.map (fun _ => 1)).sum
      relays_volume := (relays.map (fun r => r.amount_in)).sum
      relays_fees := fees
      info_id := i
      public := (chan.data.map (fun c =>
        (c.commitments.channel_flags.announce_channel).getD false)).getD false
      channel_ext := if chan.data.isNone then ChannelExt.Hosted
        else ChannelExt.Normal }

/-- src/app.rs: App::get_hosted_channel_stats, with its fixed 1-day
interval. -/
def App.get_hosted_channel_stats (app : App) (i : Nat)
    (channel_id : String) (chan : HostedChannel) (now : Nat) :
    Option ChannelStats :=
  let interval : Nat := 24 * 3600
  let relays := app.audit.relayed.filter (fun s =>
    (s.from_channel_id = channel_id ∨ s.to_channel_id = channel_id)
    ∧ now - interval < s.timestamp.unix)
  let node_id := chan.data.commitments.remote_node_id
  match sumFees relays with
  | none => none
  | some fees => some {
      chan_state := chan.state
      node_id := node_id
      chan_id := channel_id
      alias_ := ((app.known_nodes.lookup
        chan.data.commitments.remote_node_id).map
        (fun n => n.alias_)).getD node_id
      local_ := chan.data.commitments.local_spec.to_local
      remote := chan.data.commitments.local_spec.to_remote
      relays_amount := (relays.map (fun _ => 1)).sum
      relays_volume := (relays.map (fun r => r.amount_in)).sum
      relays_fees := fees
      public := false
      info_id := i
      channel_ext := ChannelExt.Hosted }

/-- src/app.rs: App::get_fiat_channel_stats, with its fixed 1-day
interval; fiat_balance is remote_balance as f64 / rate as f64. -/
def App.get_fiat_channel_stats (app : App) (i : Nat)
    (channel_id : String) (chan : FiatChannel) (now : Nat) :
    Option ChannelStats :=
  let interval : Nat := 24 * 3600
  let relays := app.audit.relayed.filter (fun s =>
    (s.from_channel_id = channel_id ∨ s.to_channel_id = channel_id)
    ∧ now - interval < s.timestamp.unix)
  let node_id := chan.data.commitments.remote_node_id
  let remote_balance := chan.data.commitments.last_cross_signed_state.remote_balance_msat
  let rate := chan.data.commitments.last_cross_signed_state.rate
  match sumFees relays with
  | none => none
  | some fees => some {
      chan_state := chan.state
      node_id := node_id
      chan_id := channel_id
      alias_ := ((app.known_nodes.lookup
        chan.data.commitments.remote_node_id).map
        (fun n => n.alias_)).getD node_id
      local_ := chan.data.commitments.last_cross_signed_state.local_balance_msat
      remote := remote_balance
      relays_amount := (relays.map (fun _ => 1)).sum
      relays_volume := (relays.map (fun r => r.amount_in)).sum
      relays_fees := fees
      info_id := i
      public := false
      channel_ext := ChannelExt.HostedFiat {
        rate := rate
        fiat_balance := FVal.fdiv (remote_balance : ℚ) (rate : ℚ) } }

/-- src/app.rs: App::get_channels_stats (enumerate + per-channel). -/
def App.get_channels_stats (app : App) (interval : Nat) (now : Nat) :
    Option (List ChannelStats) :=
  app.channels.enum.mapM (fun p => app.get_channel_stats p.1 interval p.2 now)

/-- src/app.rs: App::get_hosted_stats. -/
def App.get_hosted_stats (app : App) (now : Nat) :
    Option (List ChannelStats) :=
  app.hc_channels.enum.mapM
    (fun p => app.get_hosted_channel_stats p.1 p.2.1 p.2.2 now)

/-- src/app.rs: App::get_fiat_stats. -/
def App.get_fiat_stats (app : App) (now : Nat) :
    Option (List ChannelStats) :=
  app.fc_channels.enum.mapM
    (fun p => app.get_fiat_channel_stats p.1 p.2.1 p.2.2 now)

/-! ## The poll cycle (src/app.rs lines 519-536 and 711-794) -/

/-- The outcomes the Remote Data Source hands the five queries of one
poll cycle of query_node_info; the nodes entry is the outcome of the
get_nodes call on the unique counterpart ids of the fetched
channels. -/
structure QueryResults where
  channels : Except ClientError (List ChannelInfo)
  audit : Except ClientError AuditInfo
  nodes : Except ClientError (List NetworkNode)
  hosted : Except ClientError HcInfo
  fiat : Except ClientError FcInfo

/-- src/app.rs, query_node_info lines 741-791: the mutation block run
under the lock once every query has succeeded, embedded as the same
sequence of field updates; each later step reads the fields set by the
earlier ones exactly as the Rust methods read self.  none models a
panic inside the block (bucket index out of bounds or fee
underflow). -/
def buildSnapshot (app : App) (now : Nat) (chan_info : List ChannelInfo)
    (audit_info : AuditInfo) (nodes_info : List NetworkNode)
    (hosted_chans : HcInfo) (fiat_chans : FcInfo) : Option App := do
  let app := { app with
    channels := chan_info
    hc_channels := hosted_chans.channels
    fc_channels := fiat_chans.channels }
  let app := { app with
    active_chans := app.get_active_chans
    pending_chans := app.get_pending_chans
    sleeping_chans := app.get_sleeping_chans
    active_sats := app.get_active_sats
    pending_sats := app.get_pending_sats
    sleeping_sats := app.get_sleeping_sats }
  let app := { app with audit := audit_info }
  let amounts ← app.get_relays_amounts_line now
  let app := { app with
    relays_amounts_line := amounts.1
    relays_maximum_count := amounts.2 }
  let volumes ← app.get_relays_volumes_line now
  let app := { app with
    relays_volumes_line := volumes.1
    relays_maximum_volume := volumes.2 }
  let app := { app with
    relayed_month := app.get_relayed_month now
    relayed_day := app.get_relayed_day now
    relayed_count_month := app.get_relayed_count_month now
    relayed_count_day := app.get_relayed_count_day now }
  let fee_month ← app.get_fee_month now
  let fee_day ← app.get_fee_day now
  let app := { app with fee_month := fee_month, fee_day := fee_day }
  let app := { app with return_rate := app.get_return_rate }
  let app := { app with
    known_nodes := nodes_info.map (fun (n : NetworkNode) => (n.node_id, n)) }
  let channels_stats ← app.get_channels_stats app.stats_interval now
  let hosted_stats ← app.get_hosted_stats now
  let fiat_stats ← app.get_fiat_stats now
  some { app with
    channels_stats := channels_stats
    hosted_stats := hosted_stats
    fiat_stats := fiat_stats }

/-- src/app.rs: query_node_info.  The queries run in source order and
the first failure propagates before any App field is assigned; the two
optional plugin queries are replaced by empty maps when the capability
was not detected.  On success the mutation block runs. -/
def query_node_info (app : App) (now : Nat) (q : QueryResults) :
    Except ClientError (Option App) :=
  match q.channels with
  | Except.error e => Except.error e
  | Except.ok chan_info =>
  match q.audit with
  | Except.error e => Except.error e
  | Except.ok audit_info =>
  match q.nodes with
  | Except.error e => Except.error e
  | Except.ok nodes_info =>
  match (if app.supported.contains NodePlugin.HostedChannels
         then q.hosted else Except.ok { channels := [] }) with
  | Except.error e => Except.error e
  | Except.ok hosted_chans =>
  match (if app.supported.contains NodePlugin.FiatChannels
         then q.fiat else Except.ok { channels := [] }) with
  | Except.error e => Except.error e
  | Except.ok fiat_chans =>
    Except.ok (buildSnapshot app now chan_info audit_info nodes_info
      hosted_chans fiat_chans)

/-- src/app.rs, start_workers lines 526-527: the timestamped message
appended to the error log when a cycle fails. -/
def workerErrorMessage (now : Nat) (e : ClientError) : String :=
  "App worker failed at " ++ toString now ++ " with: " ++ e.display

/-- src/app.rs, start_workers lines 523-532: one iteration of the
worker loop: run query_node_info; on failure push exactly one
timestamped message onto the error log and leave everything else
as it was. -/
def pollCycle (app : App) (now : Nat) (q : QueryResults) : Option App :=
  match query_node_info app now q with
  | Except.error e =>
      some { app with errors := app.errors ++ [workerErrorMessage now e] }
  | Except.ok r => r

/-- src/app.rs: App::resize: recompute only the two histogram series
and their maxima from the already-stored audit when the width
changed. -/
def App.resize (app : App) (now : Nat) (new_width : Nat) : Option App :=
  if app.screen_width ≠ new_width then do
    let app := { app with screen_width := new_width }
    let amounts ← app.get_relays_amounts_line now
    let app := { app with
      relays_amounts_line := amounts.1
      relays_maximum_count := amounts.2 }
    let volumes ← app.get_relays_volumes_line now
    some { app with
      relays_volumes_line := volumes.1
      relays_maximum_volume := volumes.2 }
  else some app

/-! ## Concrete fixtures for witnesses and counterexamples -/

/-- A concrete node identity for the concrete instances below. -/
def sampleNodeInfo : NodeInfo :=
  { version := "0.7.0", node_id := "self", alias_ := "tortoise",
    color := "#000000", chain_hash := "genesis", block_height := 0,
    instance_id := "i" }

/-- The App state right after App::new, with no plugins detected. -/
def sampleApp : App := App.init sampleNodeInfo []

/-- A relay event with the given amounts and timestamp, forwarded from
chan-1 to chan-2. -/
def relayAt (amount_in amount_out t : Nat) : RelayedInfo :=
  { type_str := "payment-relayed", amount_in := amount_in,
    amount_out := amount_out, payment_hash := "ph",
    from_channel_id := "chan-1", to_channel_id := "chan-2",
    timestamp := { iso := "", unix := t } }

/-- sampleApp carrying the given relay events. -/
def appWithRelays (evs : List RelayedInfo) : App :=
  { sampleApp with audit := { relayed := evs } }

/-- A standard channel record in the given state with no data payload. -/
def chanWith (st : ChannelState) (cid : String) : ChannelInfo :=
  { node_id := "peer", channel_id := cid, state := st, data := none }

/-- The standard channel chan-1 in state Normal. -/
def sampleChan : ChannelInfo := chanWith ChannelState.Normal "chan-1"

/-- A fiat channel on chan-2. -/
def sampleFiatChan : FiatChannel :=
  { state := ChannelState.Normal,
    data := { commitments :=
      { local_node_id := "self", remote_node_id := "peer-2",
        channel_id := "chan-2",
        local_spec := { commit_tx_feerate := 0, to_local := 0, to_remote := 0 },
        last_cross_signed_state :=
          { is_host := false, block_day := 0, local_balance_msat := 1000,
            remote_balance_msat := 2000, rate := 100 } } },
    next_local_spec := { commit_tx_feerate := 0, to_local := 0, to_remote := 0 } }

/-- Scenario A of the spec: three channels in states Normal, Offline,
Opening. -/
def appScenarioA : App :=
  { sampleApp with channels :=
      [chanWith ChannelState.Normal "c1",
       chanWith ChannelState.Offline "c2",
       chanWith ChannelState.Opening "c3"] }

/-- A query outcome record where every query succeeds with empty
data. -/
def sampleQueries : QueryResults :=
  { channels := Except.ok [], audit := Except.ok AuditInfo.default,
    nodes := Except.ok [], hosted := Except.ok { channels := [] },
    fiat := Except.ok { channels := [] } }

/-- A query outcome record where the channels query fails with a
transport error. -/
def qChannelsFail : QueryResults :=
  { sampleQueries with
      channels := Except.error (ClientError.reqwestErr "connection refused") }

/-- Modelled from the spec wording only, for comparison with the code:
rescaling a bucket to round(100 * bucket / max), nearest integer with
halves up. -/
def specRound (num den : Nat) : Nat := (2 * num + den) / (2 * den)

/-- Five in-window relay events: two at second 500 (bucket 0 at width
80) and three at second 86400 (bucket 77). -/
def appC5 : App := appWithRelays
  [relayAt 10 4 500, relayAt 10 4 500,
   relayAt 10 4 86400, relayAt 10 4 86400, relayAt 10 4 86400]

/-- The raw count buckets of appC5 at width 80: 2 in bucket 0, 3 in
bucket 77. -/
def bsA5 : List Nat := 2 :: (List.replicate 76 0 ++ [3])

/-- The raw volume buckets of appC5 at width 80. -/
def bsV5 : List Nat := 20 :: (List.replicate 76 0 ++ [30])

/-! ## Helper lemmas about the binner primitives -/

theorem listIncr_some (a : Nat) :
    ∀ (l : List Nat) (i : Nat), i < l.length →
    ∃ r, listIncr l i a = some r ∧ r.length = l.length ∧ r.sum = l.sum + a := by
  intro l
  induction l with
  | nil => intro i h; simp at h
  | cons x xs ih =>
    intro i h
    cases i with
    | zero =>
      exact ⟨(x + a) :: xs, rfl, by simp, by simp [Nat.add_right_comm]⟩
    | succ j =>
      have hj : j < xs.length := by simpa using h
      obtain ⟨r, hr, hlen, hsum⟩ := ih j hj
      refine ⟨x :: r, by simp [listIncr, hr], by simp [hlen], ?_⟩
      simp [hsum, Nat.add_assoc]

theorem fillBuckets_some (t0 t1 lw : Nat) :
    ∀ (events : List (Nat × Nat)) (acc : List Nat),
    (∀ p ∈ events, (p.2 - t0) * lw / (t1 - t0) < acc.length) →
    ∃ r, fillBuckets t0 t1 lw events acc = some r ∧
      r.length = acc.length ∧ r.sum = acc.sum + (events.map Prod.fst).sum := by
  intro events
  induction events with
  | nil => intro acc _; exact ⟨acc, rfl, rfl, by simp⟩
  | cons p rest ih =>
    intro acc h
    obtain ⟨a, t⟩ := p
    have h0 : (t - t0) * lw / (t1 - t0) < acc.length := h (a, t) (by simp)
    obtain ⟨acc2, hacc2, hlen2, hsum2⟩ := listIncr_some a acc _ h0
    have hrest : ∀ q ∈ rest, (q.2 - t0) * lw / (t1 - t0) < acc2.length := by
      intro q hq; rw [hlen2]; exact h q (by simp [hq])
    obtain ⟨r, hr, hlen, hsum⟩ := ih acc2 hrest
    refine ⟨r, by simp [fillBuckets, hacc2, hr], by rw [hlen, hlen2], ?_⟩
    rw [hsum, hsum2]
    simp
    omega

theorem le_foldl_max : ∀ (l : List Nat) (a : Nat), a ≤ l.foldl max a := by
  intro l
  induction l with
  | nil => intro a; exact Nat.le_refl a
  | cons x xs ih =>
    intro a
    exact Nat.le_trans (le_max_left a x) (ih (max a x))

theorem mem_le_foldl_max :
    ∀ (l : List Nat) (a x : Nat), x ∈ l → x ≤ l.foldl max a := by
  intro l
  induction l with
  | nil => intro a x hx; simp at hx
  | cons y ys ih =>
    intro a x hx
    rcases List.mem_cons.1 hx with h | h
    · subst h
      exact Nat.le_trans (le_max_right a x) (le_foldl_max ys (max a x))
    · exact ih (max a y) x h

theorem foldl_max_le :
    ∀ (l : List Nat) (a c : Nat), a ≤ c → (∀ x ∈ l, x ≤ c) →
    l.foldl max a ≤ c := by
  intro l
  induction l with
  | nil => intro a c hac _; exact hac
  | cons y ys ih =>
    intro a c hac h
    exact ih (max a y) c (max_le_iff.2 ⟨hac, h y (by simp)⟩)
      (fun x hx => h x (by simp [hx]))

theorem foldl_max_mem :
    ∀ (l : List Nat) (a : Nat), l.foldl max a = a ∨ l.foldl max a ∈ l := by
  intro l
  induction l with
  | nil => intro a; exact Or.inl rfl
  | cons y ys ih =>
    intro a
    rw [List.foldl_cons]
    rcases ih (max a y) with h | h
    · rw [h]
      rcases Nat.le_total y a with hya | hay
      · rw [max_eq_left hya]
        exact Or.inl rfl
      · rw [max_eq_right hay]
        exact Or.inr (by simp)
    · exact Or.inr (by simp [h])

theorem sum_pos_foldl_max_pos (l : List Nat) (h : 0 < l.sum) :
    0 < l.foldl max 0 := by
  by_contra hc
  have h0 : l.foldl max 0 = 0 := Nat.eq_zero_of_not_pos hc
  have hz : ∀ x ∈ l, x = 0 := by
    intro x hx
    exact Nat.le_zero.1 (h0 ▸ mem_le_foldl_max l 0 x hx)
  rw [List.sum_eq_zero hz] at h
  exact Nat.lt_irrefl 0 h

theorem sumFees_eq_of (l : List RelayedInfo)
    (h : ∀ e ∈ l, e.amount_out ≤ e.amount_in) :
    sumFees l = some ((l.map (fun e => e.amount_in - e.amount_out)).sum) := by
  induction l with
  | nil => rfl
  | cons e rest ih =>
    have he : e.amount_out ≤ e.amount_in := h e (by simp)
    have hrest := ih (fun x hx => h x (by simp [hx]))
    simp [sumFees, checkedSub, he, hrest]

theorem sumFees_none_iff (l : List RelayedInfo) :
    sumFees l = none ↔ ∃ e ∈ l, e.amount_in < e.amount_out := by
  induction l with
  | nil => simp [sumFees]
  | cons e rest ih =>
    by_cases he : e.amount_out ≤ e.amount_in
    · rcases hrest : sumFees rest with _ | s
      · constructor
        · intro _
          obtain ⟨x, hx, hlt⟩ := ih.1 hrest
          exact ⟨x, by simp [hx], hlt⟩
        · intro _
          simp [sumFees, checkedSub, he, hrest]
      · constructor
        · intro h
          exfalso
          simp [sumFees, checkedSub, he, hrest] at h
        · rintro ⟨x, hx, hlt⟩
          rcases List.mem_cons.1 hx with rfl | hx2
          · exact absurd he (Nat.not_le.2 hlt)
          · have hn : sumFees rest = none := ih.2 ⟨x, hx2, hlt⟩
            rw [hn] at hrest
            cases hrest
    · have hlt : e.amount_in < e.amount_out := Nat.lt_of_not_le he
      constructor
      · intro _
        exact ⟨e, by simp, hlt⟩
      · intro _
        simp [sumFees, checkedSub, he]

theorem sum_sub_cast (l : List RelayedInfo)
    (h : ∀ e ∈ l, e.amount_out ≤ e.amount_in) :
    (((l.map (fun e => e.amount_in - e.amount_out)).sum : Nat) : ℤ)
      = (l.map (fun e => (e.amount_in : ℤ) - (e.amount_out : ℤ))).sum := by
  induction l with
  | nil => rfl
  | cons e rest ih =>
    have he : e.amount_out ≤ e.amount_in := h e (by simp)
    have hrest := ih (fun x hx => h x (by simp [hx]))
    simp [Nat.cast_add, hrest, Nat.cast_sub he]

theorem sum_map_one {α : Type} (l : List α) : (l.map (fun _ => 1)).sum = l.length := by
  induction l with
  | nil => rfl
  | cons x xs ih =>
    simp [ih]
    omega

theorem normalizeLine_pos (l : List Nat) (h : 0 < l.foldl max 0) :
    normalizeLine l = (l.map (fun a => 100 * a / l.foldl max 0), l.foldl max 0) := by
  simp [normalizeLine, h]

theorem normalizeLine_map_le (l : List Nat) (h : 0 < l.foldl max 0) :
    ∀ x ∈ l.map (fun a => 100 * a / l.foldl max 0), x ≤ 100 := by
  intro x hx
  obtain ⟨a, ha, rfl⟩ := List.mem_map.1 hx
  have h1 : a ≤ l.foldl max 0 := mem_le_foldl_max l 0 a ha
  calc 100 * a / l.foldl max 0
      ≤ 100 * l.foldl max 0 / l.foldl max 0 :=
        Nat.div_le_div_right (Nat.mul_le_mul_left 100 h1)
    _ = 100 := Nat.mul_div_cancel 100 h

theorem normalizeLine_map_max (l : List Nat) (h : 0 < l.foldl max 0) :
    (l.map (fun a => 100 * a / l.foldl max 0)).foldl max 0 = 100 := by
  have hmem : l.foldl max 0 ∈ l := by
    rcases foldl_max_mem l 0 with h0 | h0
    · rw [h0] at h
      exact absurd h (lt_irrefl 0)
    · exact h0
  have h100 : (100 : Nat) ∈ l.map (fun a => 100 * a / l.foldl max 0) :=
    List.mem_map.2 ⟨l.foldl max 0, hmem, Nat.mul_div_cancel 100 h⟩
  exact Nat.le_antisymm
    (foldl_max_le _ 0 100 (Nat.zero_le 100) (normalizeLine_map_le l h))
    (mem_le_foldl_max _ 0 100 h100)

theorem mem_amounts_relays (app : App) (now t : Nat) :
    t ∈ app.amounts_relays now ↔
      ∃ s ∈ app.audit.relayed,
        now - App.LINE_PERIOD < s.timestamp.unix ∧ s.timestamp.unix = t := by
  unfold App.amounts_relays
  simp [List.mem_filter]
  tauto

theorem mem_volumes_relays (app : App) (now : Nat) (p : Nat × Nat) :
    p ∈ app.volumes_relays now ↔
      ∃ s ∈ app.audit.relayed,
        now - App.LINE_PERIOD < s.timestamp.unix ∧
        s.amount_in = p.1 ∧ s.timestamp.unix = p.2 := by
  unfold App.volumes_relays
  obtain ⟨a, t⟩ := p
  simp [List.mem_filter]
  tauto

theorem bucketIndex_le (t t0 t1 lw : Nat) (h1 : t ≤ t1) (h2 : 0 < t1 - t0) :
    (t - t0) * lw / (t1 - t0) ≤ lw := by
  have hmul : (t - t0) * lw ≤ (t1 - t0) * lw :=
    Nat.mul_le_mul_right lw (Nat.sub_le_sub_right h1 t0)
  calc (t - t0) * lw / (t1 - t0)
      ≤ (t1 - t0) * lw / (t1 - t0) := Nat.div_le_div_right hmul
    _ = lw := Nat.mul_div_cancel_left lw h2

theorem raw_amounts_some (app : App) (now : Nat)
    (hnow : App.LINE_PERIOD ≤ now)
    (hle : ∀ s ∈ app.audit.relayed,
      now - App.LINE_PERIOD < s.timestamp.unix → s.timestamp.unix ≤ now) :
    ∃ bs, app.raw_amounts_buckets now = some bs ∧
      bs.length = app.screen_width - App.LINE_MARGINS - 1 + 1 ∧
      bs.sum = (app.audit.relayed.filter
        (fun s => now - App.LINE_PERIOD < s.timestamp.unix)).length := by
  have hper : now - (now - App.LINE_PERIOD) = App.LINE_PERIOD :=
    Nat.sub_sub_self hnow
  have hbound : ∀ p ∈ (app.amounts_relays now).map (fun t => ((1 : Nat), t)),
      (p.2 - (now - App.LINE_PERIOD)) * (app.screen_width - App.LINE_MARGINS - 1)
        / (now - (now - App.LINE_PERIOD))
        < (List.replicate (app.screen_width - App.LINE_MARGINS - 1 + 1) (0 : Nat)).length := by
    intro p hp
    obtain ⟨t, ht, rfl⟩ := List.mem_map.1 hp
    obtain ⟨s, hs, hwin, hts⟩ := (mem_amounts_relays app now t).1 ht
    have htle : t ≤ now := hts ▸ hle s hs (hts ▸ hwin)
    have hpos : 0 < now - (now - App.LINE_PERIOD) := by
      rw [hper]
      decide
    have := bucketIndex_le t (now - App.LINE_PERIOD) now
      (app.screen_width - App.LINE_MARGINS - 1) htle hpos
    simp only [List.length_replicate]
    omega
  obtain ⟨bs, hbs, hlen, hsum⟩ :=
    fillBuckets_some (now - App.LINE_PERIOD) now
      (app.screen_width - App.LINE_MARGINS - 1)
      ((app.amounts_relays now).map (fun t => ((1 : Nat), t)))
      (List.replicate (app.screen_width - App.LINE_MARGINS - 1 + 1) 0)
      hbound
  refine ⟨bs, hbs, by simpa using hlen, ?_⟩
  rw [hsum]
  have hmm : (((app.amounts_relays now).map (fun t => ((1 : Nat), t))).map Prod.fst)
      = (app.amounts_relays now).map (fun _ => 1) := by
    rw [List.map_map]
    rfl
  rw [hmm, sum_map_one]
  simp [App.amounts_relays]

theorem raw_volumes_some (app : App) (now : Nat)
    (hnow : App.LINE_PERIOD ≤ now)
    (hle : ∀ s ∈ app.audit.relayed,
      now - App.LINE_PERIOD < s.timestamp.unix → s.timestamp.unix ≤ now) :
    ∃ bs, app.raw_volumes_buckets now = some bs ∧
      bs.length = app.screen_width - App.LINE_MARGINS - 1 + 1 := by
  have hbound : ∀ p ∈ app.volumes_relays now,
      (p.2 - (now - App.LINE_PERIOD)) * (app.screen_width - App.LINE_MARGINS - 1)
        / (now - (now - App.LINE_PERIOD))
        < (List.replicate (app.screen_width - App.LINE_MARGINS - 1 + 1) (0 : Nat)).length := by
    intro p hp
    obtain ⟨s, hs, hwin, _, hts⟩ := (mem_volumes_relays app now p).1 hp
    have htle : p.2 ≤ now := hts ▸ hle s hs hwin
    have hpos : 0 < now - (now - App.LINE_PERIOD) := by
      rw [Nat.sub_sub_self hnow]
      decide
    have := bucketIndex_le p.2 (now - App.LINE_PERIOD) now
      (app.screen_width - App.LINE_MARGINS - 1) htle hpos
    simp only [List.length_replicate]
    omega
  obtain ⟨bs, hbs, hlen, _⟩ :=
    fillBuckets_some (now - App.LINE_PERIOD) now
      (app.screen_width - App.LINE_MARGINS - 1)
      (app.volumes_relays now)
      (List.replicate (app.screen_width - App.LINE_MARGINS - 1 + 1) 0)
      hbound
  exact ⟨bs, hbs, by simpa using hlen⟩

theorem state_partition (l : List ChannelInfo) :
    l.countP (fun c => c.state.is_normal)
      + l.countP (fun c => c.state.is_pending)
      + l.countP (fun c => c.state.is_sleeping)
      + l.countP (fun c => c.state = ChannelState.Closed) = l.length := by
  induction l with
  | nil => rfl
  | cons c cs ih =>
    rw [List.countP_cons, List.countP_cons, List.countP_cons, List.countP_cons,
      List.length_cons]
    cases h : c.state <;>
      simp [ChannelState.is_normal, ChannelState.is_pending,
        ChannelState.is_sleeping, h] at ih ⊢ <;>
      omega

/-! ## Claims -/

/-- Claim C1: if any query or decode step of a poll cycle fails,
query_node_info returns the error before any App field is assigned,
and the cycle appends exactly one timestamped message to the error
log while leaving every other field of the App (the whole previous
snapshot) unchanged: the resulting state is the record update of the
old state in the errors field alone. -/
theorem claim_C1_error_cycle_atomic (app : App) (now : Nat)
    (q : QueryResults) (e : ClientError)
    (h : query_node_info app now q = Except.error e) :
    pollCycle app now q
      = some { app with errors := app.errors ++ [workerErrorMessage now e] } := by
  unfold pollCycle
  rw [h]

/-- Witness for C1: a failing channels query on the freshly
initialized state appends one message and changes nothing else. -/
theorem claim_C1_witness :
    query_node_info sampleApp 0 qChannelsFail
      = Except.error (ClientError.reqwestErr "connection refused") ∧
    pollCycle sampleApp 0 qChannelsFail
      = some { sampleApp with errors := sampleApp.errors
          ++ [workerErrorMessage 0 (ClientError.reqwestErr "connection refused")] } :=
  ⟨rfl, claim_C1_error_cycle_atomic sampleApp 0 qChannelsFail _ rfl⟩

/-- Claim C6: the Active, Pending and Sleeping display groups are
pairwise disjoint (Active iff Normal, Pending iff one of Opening,
Closing, Syncing, WaitForFundingConfirmed, Sleeping iff Offline), so
the three counts sum to at most the channel count, with equality
exactly when no channel is in state Closed. -/
theorem claim_C6_display_groups (app : App) :
    (∀ s : ChannelState,
      (s.is_normal → ¬ s.is_pending ∧ ¬ s.is_sleeping) ∧
      (s.is_pending → ¬ s.is_normal ∧ ¬ s.is_sleeping) ∧
      (s.is_sleeping → ¬ s.is_normal ∧ ¬ s.is_pending)) ∧
    app.get_active_chans + app.get_pending_chans + app.get_sleeping_chans
      ≤ app.channels.length ∧
    (app.get_active_chans + app.get_pending_chans + app.get_sleeping_chans
        = app.channels.length
      ↔ ∀ c ∈ app.channels, c.state ≠ ChannelState.Closed) := by
  have ha : app.get_active_chans
      = app.channels.countP (fun c => c.state.is_normal) :=
    (List.countP_eq_length_filter _ _).symm
  have hp : app.get_pending_chans
      = app.channels.countP (fun c => c.state.is_pending) :=
    (List.countP_eq_length_filter _ _).symm
  have hs : app.get_sleeping_chans
      = app.channels.countP (fun c => c.state.is_sleeping) :=
    (List.countP_eq_length_filter _ _).symm
  have hpart := state_partition app.channels
  refine ⟨?_, ?_, ?_⟩
  · intro s
    cases s <;> simp [ChannelState.is_normal, ChannelState.is_pending,
      ChannelState.is_sleeping]
  · omega
  · rw [ha, hp, hs]
    have hzero : app.channels.countP (fun c => c.state = ChannelState.Closed) = 0
        ↔ ∀ c ∈ app.channels, c.state ≠ ChannelState.Closed := by
      rw [List.countP_eq_zero]
      simp
    constructor
    · intro he
      rw [← hzero]
      omega
    · intro hc
      have := hzero.2 hc
      omega

/-- Witness for C6: Scenario A of the spec, channels in states Normal,
Offline, Opening: the three groups have one channel each and cover all
three channels. -/
theorem claim_C6_witness :
    appScenarioA.get_active_chans + appScenarioA.get_pending_chans
      + appScenarioA.get_sleeping_chans = 3 := by
  have h := (claim_C6_display_groups appScenarioA).2.2.mpr (by decide)
  simpa using h

/-- Claim C9: get_return_rate always computes
12 * 100 * fee_month / total_channel_volume where the total volume is
the sum of the active, pending and sleeping balance sums; when the
total volume is 0 the result is a non-finite f64 value (NaN or
infinity), and the computation is total: f64 division cannot panic. -/
theorem claim_C9_return_rate (app : App) :
    app.get_return_rate
      = FVal.fdiv (12 * 100 * (app.fee_month : ℚ))
        ((app.active_sats + app.pending_sats + app.sleeping_sats : Nat) : ℚ) ∧
    (app.local_volume = 0 → app.get_return_rate.isFinite = false) ∧
    (app.local_volume ≠ 0 →
      app.get_return_rate
        = FVal.fin ((12 * 100 * (app.fee_month : ℚ)) / (app.local_volume : ℚ))) := by
  refine ⟨rfl, ?_, ?_⟩
  · intro h
    unfold App.get_return_rate FVal.fdiv
    rw [h]
    norm_num
    split_ifs <;> rfl
  · intro h
    have hq : ((app.local_volume : ℚ)) ≠ 0 := Nat.cast_ne_zero.mpr h
    unfold App.get_return_rate FVal.fdiv
    rw [if_neg hq]

/-- Witness for C9: the freshly initialized App has total volume 0 and
its return rate is non-finite. -/
theorem claim_C9_witness :
    sampleApp.local_volume = 0 ∧ sampleApp.get_return_rate.isFinite = false :=
  ⟨rfl, (claim_C9_return_rate sampleApp).2.1 rfl⟩

/-- Claim C10: every fee aggregation evaluates amount_in - amount_out
in unsigned arithmetic with no underflow guard.  When every in-window
event satisfies amount_out <= amount_in, get_fee is defined and equals
the exact sum of differences; one in-window event with
amount_out > amount_in makes get_fee (and likewise the per-channel
relays_fees computation of get_channel_stats) abort with an underflow
panic, modelled as none. -/
theorem claim_C10_fee_underflow (app : App) (now interval i : Nat)
    (chan : ChannelInfo) :
    ((∀ e ∈ app.audit.relayed.filter
        (fun s => now - interval < s.timestamp.unix),
        e.amount_out ≤ e.amount_in) →
      ∃ f, app.get_fee now interval = some f ∧
        (f : ℤ) = ((app.audit.relayed.filter
          (fun s => now - interval < s.timestamp.unix)).map
            (fun e => (e.amount_in : ℤ) - (e.amount_out : ℤ))).sum) ∧
    ((∃ e ∈ app.audit.relayed.filter
        (fun s => now - interval < s.timestamp.unix),
        e.amount_in < e.amount_out) →
      app.get_fee now interval = none) ∧
    ((∃ e ∈ app.audit.relayed.filter (fun s =>
        (s.from_channel_id = chan.channel_id ∨ s.to_channel_id = chan.channel_id)
        ∧ now - interval < s.timestamp.unix),
        e.amount_in < e.amount_out) →
      app.get_channel_stats i interval chan now = none) := by
  refine ⟨?_, ?_, ?_⟩
  · intro h
    exact ⟨_, sumFees_eq_of _ h, sum_sub_cast _ h⟩
  · intro h
    exact (sumFees_none_iff _).2 h
  · intro h
    have hn := (sumFees_none_iff _).2 h
    simp only [App.get_channel_stats, hn]

/-- Witness for C10: an in-window event forwarding more than it
received (amount_in 4, amount_out 10) makes get_fee panic (none). -/
theorem claim_C10_witness :
    (∃ e ∈ (appWithRelays [relayAt 4 10 86400]).audit.relayed.filter
      (fun s => 86400 - 86400 < s.timestamp.unix),
      e.amount_in < e.amount_out) ∧
    (appWithRelays [relayAt 4 10 86400]).get_fee 86400 86400 = none := by
  refine ⟨⟨relayAt 4 10 86400, by decide, by decide⟩, ?_⟩
  exact (claim_C10_fee_underflow (appWithRelays [relayAt 4 10 86400])
    86400 86400 0 sampleChan).2.1 ⟨relayAt 4 10 86400, by decide, by decide⟩

/-- Claim C8: the relay count, volume and fee figures of a ChannelStatistic
are the count, the sum of amount_in, and the sum of
amount_in - amount_out over exactly the relay events whose
from_channel_id or to_channel_id equals this channel id and whose
timestamp exceeds now - lookback (the fiat variant fixes the lookback
at one day); a channel with no matching events gets figures (0, 0, 0)
and the computation does not fail.  The fee sums presuppose
amount_out <= amount_in on the matching events (claim C10 covers the
underflow). -/
theorem claim_C8_relay_figures (app : App) (i j interval now : Nat)
    (chan : ChannelInfo) (cid : String) (fchan : FiatChannel)
    (h1 : ∀ e ∈ app.audit.relayed,
      (e.from_channel_id = chan.channel_id ∨ e.to_channel_id = chan.channel_id) →
      now - interval < e.timestamp.unix → e.amount_out ≤ e.amount_in)
    (h2 : ∀ e ∈ app.audit.relayed,
      (e.from_channel_id = cid ∨ e.to_channel_id = cid) →
      now - 24 * 3600 < e.timestamp.unix → e.amount_out ≤ e.amount_in) :
    ((app.get_channel_stats i interval chan now).map
        (fun st => st.relays_amount)
      = some (app.audit.relayed.filter (fun s =>
          (s.from_channel_id = chan.channel_id ∨ s.to_channel_id = chan.channel_id)
          ∧ now - interval < s.timestamp.unix)).length ∧
      (app.get_channel_stats i interval chan now).map
        (fun st => st.relays_volume)
      = some ((app.audit.relayed.filter (fun s =>
          (s.from_channel_id = chan.channel_id ∨ s.to_channel_id = chan.channel_id)
          ∧ now - interval < s.timestamp.unix)).map (fun r => r.amount_in)).sum ∧
      (app.get_channel_stats i interval chan now).map
        (fun st => (st.relays_fees : ℤ))
      = some ((app.audit.relayed.filter (fun s =>
          (s.from_channel_id = chan.channel_id ∨ s.to_channel_id = chan.channel_id)
          ∧ now - interval < s.timestamp.unix)).map
            (fun r => (r.amount_in : ℤ) - (r.amount_out : ℤ))).sum ∧
      ((app.audit.relayed.filter (fun s =>
          (s.from_channel_id = chan.channel_id ∨ s.to_channel_id = chan.channel_id)
          ∧ now - interval < s.timestamp.unix)) = [] →
        (app.get_channel_stats i interval chan now).map
          (fun st => (st.relays_amount, st.relays_volume, st.relays_fees))
          = some (0, 0, 0))) ∧
    ((app.get_fiat_channel_stats j cid fchan now).map
        (fun st => st.relays_amount)
      = some (app.audit.relayed.filter (fun s =>
          (s.from_channel_id = cid ∨ s.to_channel_id = cid)
          ∧ now - 24 * 3600 < s.timestamp.unix)).length ∧
      (app.get_fiat_channel_stats j cid fchan now).map
        (fun st => st.relays_volume)
      = some ((app.audit.relayed.filter (fun s =>
          (s.from_channel_id = cid ∨ s.to_channel_id = cid)
          ∧ now - 24 * 3600 < s.timestamp.unix)).map (fun r => r.amount_in)).sum ∧
      (app.get_fiat_channel_stats j cid fchan now).map
        (fun st => (st.relays_fees : ℤ))
      = some ((app.audit.relayed.filter (fun s =>
          (s.from_channel_id = cid ∨ s.to_channel_id = cid)
          ∧ now - 24 * 3600 < s.timestamp.unix)).map
            (fun r => (r.amount_in : ℤ) - (r.amount_out : ℤ))).sum ∧
      ((app.audit.relayed.filter (fun s =>
          (s.from_channel_id = cid ∨ s.to_channel_id = cid)
          ∧ now - 24 * 3600 < s.timestamp.unix)) = [] →
        (app.get_fiat_channel_stats j cid fchan now).map
          (fun st => (st.relays_amount, st.relays_volume, st.relays_fees))
          = some (0, 0, 0))) := by
  have hF1 : ∀ e ∈ app.audit.relayed.filter (fun s =>
      (s.from_channel_id = chan.channel_id ∨ s.to_channel_id = chan.channel_id)
      ∧ now - interval < s.timestamp.unix), e.amount_out ≤ e.amount_in := by
    intro e he
    obtain ⟨hm, hp⟩ := List.mem_filter.1 he
    simp only [decide_eq_true_eq] at hp
    exact h1 e hm hp.1 hp.2
  have hF2 : ∀ e ∈ app.audit.relayed.filter (fun s =>
      (s.from_channel_id = cid ∨ s.to_channel_id = cid)
      ∧ now - 24 * 3600 < s.timestamp.unix), e.amount_out ≤ e.amount_in := by
    intro e he
    obtain ⟨hm, hp⟩ := List.mem_filter.1 he
    simp only [decide_eq_true_eq] at hp
    exact h2 e hm hp.1 hp.2
  have hsf1 := sumFees_eq_of _ hF1
  have hsf2 := sumFees_eq_of _ hF2
  refine ⟨⟨?_, ?_, ?_, ?_⟩, ?_, ?_, ?_, ?_⟩
  · simp only [App.get_channel_stats, hsf1, Option.map_some', Option.some.injEq]
    exact sum_map_one _
  · simp only [App.get_channel_stats, hsf1, Option.map_some']
  · simp only [App.get_channel_stats, hsf1, Option.map_some', Option.some.injEq]
    exact sum_sub_cast _ hF1
  · intro h0
    simp only [App.get_channel_stats, hsf1, Option.map_some', Option.some.injEq, h0]
    rfl
  · simp only [App.get_fiat_channel_stats, hsf2, Option.map_some', Option.some.injEq]
    exact sum_map_one _
  · simp only [App.get_fiat_channel_stats, hsf2, Option.map_some']
  · simp only [App.get_fiat_channel_stats, hsf2, Option.map_some', Option.some.injEq]
    exact sum_sub_cast _ hF2
  · intro h0
    simp only [App.get_fiat_channel_stats, hsf2, Option.map_some', Option.some.injEq, h0]
    rfl

/-- Witness for C8: one in-window relay from chan-1 to chan-2 gives the
Normal channel chan-1 the relay count of the singleton matching
list. -/
theorem claim_C8_witness :
    ((appWithRelays [relayAt 10 4 86400]).get_channel_stats 0 86400
        sampleChan 86400).map (fun st => st.relays_amount)
      = some ((appWithRelays [relayAt 10 4 86400]).audit.relayed.filter
          (fun s =>
            (s.from_channel_id = sampleChan.channel_id
              ∨ s.to_channel_id = sampleChan.channel_id)
            ∧ 86400 - 86400 < s.timestamp.unix)).length :=
  (claim_C8_relay_figures (appWithRelays [relayAt 10 4 86400]) 0 0 86400 86400
    sampleChan "chan-2" sampleFiatChan (by decide) (by decide)).1.1

/-- Claim C2 (counterexample to the claim as stated): the bucket index
is not clamped into [0, N]: a retained relay event with timestamp one
day past now produces index 154 > 77 at width 80 and the bucket
increment is an out-of-bounds access (an index panic, modelled as
none). -/
theorem claim_C2_counterexample :
    (appWithRelays [relayAt 10 4 (3 * 86400)]).get_relays_amounts_line
      (2 * 86400) = none := by decide

/-- Claim C2 (amended): for every retained event with timestamp at most
now, the bucket index floor((t - t0) / (t1 - t0) * line_width) is at
most line_width, hence inside the line_width + 1 allocated buckets,
and both binner variants complete without an out-of-bounds access; no
clamping is performed, and a retained event with timestamp beyond now
can produce an out-of-bounds index (see the counterexample). -/
theorem claim_C2_bucket_index_in_bounds (app : App) (now : Nat)
    (hw : 3 ≤ app.screen_width) (hnow : App.LINE_PERIOD ≤ now)
    (hle : ∀ s ∈ app.audit.relayed,
      now - App.LINE_PERIOD < s.timestamp.unix → s.timestamp.unix ≤ now) :
    (∀ s ∈ app.audit.relayed, now - App.LINE_PERIOD < s.timestamp.unix →
      (s.timestamp.unix - (now - App.LINE_PERIOD))
          * (app.screen_width - App.LINE_MARGINS - 1)
          / (now - (now - App.LINE_PERIOD))
        ≤ app.screen_width - App.LINE_MARGINS - 1) ∧
    (app.get_relays_amounts_line now).isSome = true ∧
    (app.get_relays_volumes_line now).isSome = true := by
  have hw3 : ¬ app.screen_width < 3 := by omega
  have hpos : 0 < now - (now - App.LINE_PERIOD) := by
    rw [Nat.sub_sub_self hnow]
    decide
  refine ⟨?_, ?_, ?_⟩
  · intro s hs hwin
    exact bucketIndex_le _ _ _ _ (hle s hs hwin) hpos
  · by_cases hne : (app.amounts_relays now).isEmpty
    · simp [App.get_relays_amounts_line, hw3, hne]
    · obtain ⟨bs, hbs, _, _⟩ := raw_amounts_some app now hnow hle
      simp [App.get_relays_amounts_line, hw3, hne, hbs]
  · by_cases hne : (app.volumes_relays now).isEmpty
    · simp [App.get_relays_volumes_line, hw3, hne]
    · obtain ⟨bs, hbs, _⟩ := raw_volumes_some app now hnow hle
      simp [App.get_relays_volumes_line, hw3, hne, hbs]

/-- Witness for C2 (amended): one event exactly at now stays in bounds
and both binners succeed. -/
theorem claim_C2_witness :
    ((appWithRelays [relayAt 10 4 86400]).get_relays_amounts_line 86400).isSome
      = true ∧
    ((appWithRelays [relayAt 10 4 86400]).get_relays_volumes_line 86400).isSome
      = true :=
  ⟨(claim_C2_bucket_index_in_bounds (appWithRelays [relayAt 10 4 86400]) 86400
      (by decide) (by decide) (by decide)).2.1,
   (claim_C2_bucket_index_in_bounds (appWithRelays [relayAt 10 4 86400]) 86400
      (by decide) (by decide) (by decide)).2.2⟩

/-- Claim C3 (counterexample to the claim as stated): with no events in
the window the count binner returns the untouched zero vector of
length 78 (at width 80), not the empty vector. -/
theorem claim_C3_counterexample :
    sampleApp.get_relays_amounts_line 86400
      = some (List.replicate 78 0, 0) ∧
    List.replicate 78 (0 : Nat) ≠ [] := by
  exact ⟨by decide, by decide⟩

/-- Claim C3 (amended): with no relay events inside the trailing day,
both binner variants return the allocated all-zero series of length
screen_width - 2 (not the empty vector) and maximum 0, and no
division by zero occurs since the normalization branch is never
entered. -/
theorem claim_C3_empty_window (app : App) (now : Nat)
    (hw : 3 ≤ app.screen_width) (hnow : App.LINE_PERIOD ≤ now)
    (h : ∀ s ∈ app.audit.relayed,
      ¬ (now - App.LINE_PERIOD < s.timestamp.unix)) :
    app.get_relays_amounts_line now
      = some (List.replicate (app.screen_width - App.LINE_MARGINS) 0, 0) ∧
    app.get_relays_volumes_line now
      = some (List.replicate (app.screen_width - App.LINE_MARGINS) 0, 0) := by
  have hw3 : ¬ app.screen_width < 3 := by omega
  have hfil : app.audit.relayed.filter
      (fun s => now - App.LINE_PERIOD < s.timestamp.unix) = [] := by
    rw [List.filter_eq_nil_iff]
    intro a ha
    simpa using h a ha
  have hM : App.LINE_MARGINS = 2 := rfl
  have hlen : app.screen_width - App.LINE_MARGINS - 1 + 1
      = app.screen_width - App.LINE_MARGINS := by omega
  constructor
  · have hE : (app.amounts_relays now).isEmpty = true := by
      simp [App.amounts_relays, hfil]
    simp [App.get_relays_amounts_line, hw3, hE, hlen]
  · have hE : (app.volumes_relays now).isEmpty = true := by
      simp [App.volumes_relays, hfil]
    simp [App.get_relays_volumes_line, hw3, hE, hlen]

/-- Witness for C3 (amended): the fresh empty state at width 80. -/
theorem claim_C3_witness :
    sampleApp.get_relays_amounts_line 86400
      = some (List.replicate (sampleApp.screen_width - App.LINE_MARGINS) 0, 0) ∧
    sampleApp.get_relays_volumes_line 86400
      = some (List.replicate (sampleApp.screen_width - App.LINE_MARGINS) 0, 0) :=
  claim_C3_empty_window sampleApp 86400 (by decide) (by decide) (by decide)

/-- Claim C4 (counterexample to the claim as stated): the series
returned by get_relays_amounts_line is already normalized to
percentages, so for a single in-window event its bucket sum is 100
while the event count is 1. -/
theorem claim_C4_counterexample :
    ((appWithRelays [relayAt 10 4 86400]).get_relays_amounts_line 86400).map
        (fun p => p.1.sum) = some 100 ∧
    ((appWithRelays [relayAt 10 4 86400]).audit.relayed.filter
        (fun s => 86400 - App.LINE_PERIOD < s.timestamp.unix)).length = 1 ∧
    (100 : Nat) ≠ 1 := by
  exact ⟨by decide, by decide, by decide⟩

/-- Claim C4 (amended): the sum of the pre-normalization count buckets
equals the number of events with timestamp > now - W; the series the
function returns is the percentage rescaling of those buckets. -/
theorem claim_C4_raw_bucket_sum (app : App) (now : Nat)
    (hnow : App.LINE_PERIOD ≤ now)
    (hle : ∀ s ∈ app.audit.relayed,
      now - App.LINE_PERIOD < s.timestamp.unix → s.timestamp.unix ≤ now) :
    ∃ bs, app.raw_amounts_buckets now = some bs ∧
      bs.sum = (app.audit.relayed.filter
        (fun s => now - App.LINE_PERIOD < s.timestamp.unix)).length := by
  obtain ⟨bs, h1, _, h3⟩ := raw_amounts_some app now hnow hle
  exact ⟨bs, h1, h3⟩

/-- Witness for C4 (amended): one in-window event, raw bucket sum 1. -/
theorem claim_C4_witness :
    ∃ bs, (appWithRelays [relayAt 10 4 86400]).raw_amounts_buckets 86400
        = some bs ∧
      bs.sum = ((appWithRelays [relayAt 10 4 86400]).audit.relayed.filter
        (fun s => 86400 - App.LINE_PERIOD < s.timestamp.unix)).length :=
  claim_C4_raw_bucket_sum (appWithRelays [relayAt 10 4 86400]) 86400
    (by decide) (by decide)

/-- Claim C5 (counterexample to the claim as stated): the code
truncates 100 * bucket / max (the Rust as-cast), it does not round:
with raw buckets 2 and 3 (max 3) the returned bucket is 66, while
round(100 * 2 / 3) = 67. -/
theorem claim_C5_counterexample :
    (appC5.raw_amounts_buckets 86400).map
        (fun bs => (bs.getD 0 0, bs.foldl max 0)) = some (2, 3) ∧
    (appC5.get_relays_amounts_line 86400).map (fun p => p.1.getD 0 0)
      = some 66 ∧
    specRound (100 * 2) 3 = 67 ∧ (66 : Nat) ≠ 67 := by
  exact ⟨by decide, by decide, by decide, by decide⟩

/-- Claim C5 (amended): for a nonempty window whose raw maximum bucket
value is nonzero, each returned bucket is the truncation
floor(100 * bucket / max) of the exact percentage (not its rounding),
the maximum bucket after normalization is exactly 100, every bucket is
at most 100, and the returned maximum is the un-normalized raw
maximum; this holds for both variants. -/
theorem claim_C5_normalization (app : App) (now : Nat)
    (bsA bsV : List Nat) (hw : 3 ≤ app.screen_width)
    (hA : app.raw_amounts_buckets now = some bsA)
    (hAne : (app.amounts_relays now).isEmpty = false)
    (hApos : 0 < bsA.foldl max 0)
    (hV : app.raw_volumes_buckets now = some bsV)
    (hVne : (app.volumes_relays now).isEmpty = false)
    (hVpos : 0 < bsV.foldl max 0) :
    (app.get_relays_amounts_line now
      = some (bsA.map (fun a => 100 * a / bsA.foldl max 0), bsA.foldl max 0) ∧
     (∀ x ∈ bsA.map (fun a => 100 * a / bsA.foldl max 0), x ≤ 100) ∧
     (bsA.map (fun a => 100 * a / bsA.foldl max 0)).foldl max 0 = 100) ∧
    (app.get_relays_volumes_line now
      = some (bsV.map (fun a => 100 * a / bsV.foldl max 0), bsV.foldl max 0) ∧
     (∀ x ∈ bsV.map (fun a => 100 * a / bsV.foldl max 0), x ≤ 100) ∧
     (bsV.map (fun a => 100 * a / bsV.foldl max 0)).foldl max 0 = 100) := by
  have hw3 : ¬ app.screen_width < 3 := by omega
  have h1 : app.get_relays_amounts_line now = some (normalizeLine bsA) := by
    simp [App.get_relays_amounts_line, hw3, hAne, hA]
  have h2 : app.get_relays_volumes_line now = some (normalizeLine bsV) := by
    simp [App.get_relays_volumes_line, hw3, hVne, hV]
  rw [normalizeLine_pos bsA hApos] at h1
  rw [normalizeLine_pos bsV hVpos] at h2
  exact ⟨⟨h1, normalizeLine_map_le bsA hApos, normalizeLine_map_max bsA hApos⟩,
    ⟨h2, normalizeLine_map_le bsV hVpos, normalizeLine_map_max bsV hVpos⟩⟩

/-- Witness for C5 (amended) at appC5: raw buckets 2 and 3, max 3, the
returned series is the truncated rescaling. -/
theorem claim_C5_witness :
    appC5.get_relays_amounts_line 86400
      = some (bsA5.map (fun a => 100 * a / bsA5.foldl max 0),
          bsA5.foldl max 0) :=
  (claim_C5_normalization appC5 86400 bsA5 bsV5 (by decide) (by decide)
    (by decide) (by decide) (by decide) (by decide) (by decide)).1.1

/-- Claim C7 (counterexample to the claim as stated): at width 80 the
returned series has 78 = screen_width - margin buckets, while an
allocation of N + 1 buckets with N = screen_width - margin would give
79. -/
theorem claim_C7_counterexample :
    (sampleApp.get_relays_amounts_line 86400).map (fun p => p.1.length)
      = some (sampleApp.screen_width - App.LINE_MARGINS) ∧
    sampleApp.screen_width - App.LINE_MARGINS
      ≠ sampleApp.screen_width - App.LINE_MARGINS + 1 := by
  exact ⟨by decide, by decide⟩

/-- Claim C7 (amended): the binner allocates N + 1 buckets with
N = screen_width - margin - 1 (not screen_width - margin), so every
count-variant series has exactly screen_width - margin buckets; the
volume variant returns that same length unless the window is nonempty
with every amount zero, in which case it returns the empty series with
maximum 0. -/
theorem claim_C7_series_length (app : App) (now : Nat)
    (hw : 3 ≤ app.screen_width) (hnow : App.LINE_PERIOD ≤ now)
    (hle : ∀ s ∈ app.audit.relayed,
      now - App.LINE_PERIOD < s.timestamp.unix → s.timestamp.unix ≤ now) :
    app.screen_width - App.LINE_MARGINS
      = app.screen_width - App.LINE_MARGINS - 1 + 1 ∧
    (app.get_relays_amounts_line now).map (fun p => p.1.length)
      = some (app.screen_width - App.LINE_MARGINS) ∧
    (∀ l m, app.get_relays_volumes_line now = some (l, m) →
      l.length = app.screen_width - App.LINE_MARGINS ∨ (l = [] ∧ m = 0)) := by
  have hw3 : ¬ app.screen_width < 3 := by omega
  have hM : App.LINE_MARGINS = 2 := rfl
  have hlen : app.screen_width - App.LINE_MARGINS - 1 + 1
      = app.screen_width - App.LINE_MARGINS := by omega
  refine ⟨hlen.symm, ?_, ?_⟩
  · by_cases hne : (app.amounts_relays now).isEmpty
    · simp [App.get_relays_amounts_line, hw3, hne, hlen]
    · obtain ⟨bs, hbs, hblen, hbsum⟩ := raw_amounts_some app now hnow hle
      have hlenrel : (app.amounts_relays now).length
          = (app.audit.relayed.filter
            (fun s => now - App.LINE_PERIOD < s.timestamp.unix)).length := by
        simp [App.amounts_relays]
      have hnenil : (app.amounts_relays now) ≠ [] := by
        simpa [List.isEmpty_iff] using hne
      have hfpos := List.length_pos.2 hnenil
      have hmax : 0 < bs.foldl max 0 := by
        apply sum_pos_foldl_max_pos
        omega
      have hline : app.get_relays_amounts_line now
          = some (normalizeLine bs) := by
        simp [App.get_relays_amounts_line, hw3, hne, hbs]
      rw [hline, normalizeLine_pos bs hmax]
      simp only [Option.map_some', List.length_map, Option.some.injEq]
      omega
  · intro l m heq
    by_cases hne : (app.volumes_relays now).isEmpty
    · have hline : app.get_relays_volumes_line now
          = some (List.replicate
              (app.screen_width - App.LINE_MARGINS - 1 + 1) 0, 0) := by
        simp [App.get_relays_volumes_line, hw3, hne]
      rw [hline] at heq
      have hpair := Option.some.inj heq
      left
      have hl : l = List.replicate
          (app.screen_width - App.LINE_MARGINS - 1 + 1) 0 :=
        (congrArg Prod.fst hpair).symm
      rw [hl]
      simp only [List.length_replicate]
      omega
    · obtain ⟨bs, hbs, hblen⟩ := raw_volumes_some app now hnow hle
      have hline : app.get_relays_volumes_line now
          = some (normalizeLine bs) := by
        simp [App.get_relays_volumes_line, hw3, hne, hbs]
      rw [hline] at heq
      have hpair := Option.some.inj heq
      by_cases hmax : 0 < bs.foldl max 0
      · rw [normalizeLine_pos bs hmax] at hpair
        left
        have hl : l = bs.map (fun a => 100 * a / bs.foldl max 0) :=
          (congrArg Prod.fst hpair).symm
        rw [hl]
        simp only [List.length_map]
        omega
      · have hzero : normalizeLine bs = ([], 0) := by
          simp [normalizeLine, Nat.eq_zero_of_not_pos hmax]
        rw [hzero] at hpair
        right
        exact ⟨(congrArg Prod.fst hpair).symm, (congrArg Prod.snd hpair).symm⟩

/-- Witness for C7 (amended): the fresh empty state at width 80 yields
a 78-bucket series for both variants. -/
theorem claim_C7_witness :
    (sampleApp.get_relays_amounts_line 86400).map (fun p => p.1.length)
      = some (sampleApp.screen_width - App.LINE_MARGINS) ∧
    (∀ l m, sampleApp.get_relays_volumes_line 86400 = some (l, m) →
      l.length = sampleApp.screen_width - App.LINE_MARGINS
        ∨ (l = [] ∧ m = 0)) :=
  ⟨(claim_C7_series_length sampleApp 86400 (by decide) (by decide)
      (by decide)).2.1,
   (claim_C7_series_length sampleApp 86400 (by decide) (by decide)
      (by decide)).2.2⟩

end Tortoise
